import Mathlib

/-!
# LogChecker: a verification development for `logchecker.go`

A shallow embedding of the Go package `logchecker` (file `logchecker.go`) and
of the library routines it calls, followed by theorems about the embedded
functions.

Conventions of the embedding.

* A Go `string` is a Lean `String`; the routines used here (`strings.Trim`
  with an ASCII cutset, `filepath.Clean`, `strings.Join`) only ever cut or
  compare at ASCII bytes, so they act on code points exactly as they act on
  the UTF-8 bytes.
* A Go `error` is `Option GoError`, `none` being `nil`.
* A Go `uint` is a `Nat`; no arithmetic is performed on these fields.
* The operating system and the JSON decoder are an explicit environment
  `Env`; the package-level loggers are an explicit record `Loggers`.
-/

namespace Logchecker

/-! ## Errors -/

/-- A non-nil Go `error` value, identified by its message. -/
structure GoError where
  msg : String
deriving DecidableEq, Repr

/-- The result of `fmt.Errorf` on a format without verbs. -/
def Errorf (format : String) : GoError := ⟨format⟩

/-- The content of a file, as a sequence of bytes. -/
abbrev Bytes := List Nat

/-! ## The data model (`File`, `Service`, `Config`, `LogChecker`) -/

/-- The Go struct `File`. -/
structure File where
  Log : String
  Delay : Nat
  Pattern : String
  Boundary : Nat
  Increase : Bool
  Emails : List String
  Limits : List Nat
deriving DecidableEq, Repr

/-- The Go struct `Service`. -/
structure Service where
  Name : String
  Files : List File
deriving DecidableEq, Repr

/-- The Go struct `Config`; the map `Sender` is kept as the list of its
key/value pairs (a nil map is the empty list). -/
structure Config where
  Path : String
  Sender : List (String × String)
  Observed : List Service
deriving DecidableEq, Repr

/-- The Go struct `LogChecker`. -/
structure LogChecker where
  Name : String
  Cfg : Config
deriving DecidableEq, Repr

/-- The Go function `New`: a zero-valued `LogChecker`. -/
def New : LogChecker := ⟨"", ⟨"", [], []⟩⟩

/-! ## The environment -/

/-- What the package obtains from the operating system and from
`encoding/json`.

* `getwd` is `os.Getwd`.
* `stat p` is the error of `os.Stat p` (`none` when the call succeeds).
* `readFile p` is `ioutil.ReadFile p`: the bytes read and the error. As in
  Go, a read that fails after the file was opened returns the bytes read so
  far together with the error.
* `checkValid` is the well-formedness scan `json.Unmarshal` runs first.
* `decode` is the decoder proper, `decodeState.unmarshal`, filling a
  `Config` from well-formed JSON. -/
structure Env where
  getwd : String × Option GoError
  stat : String → Option GoError
  readFile : String → Bytes × Option GoError
  checkValid : Bytes → Option GoError
  decode : Bytes → Config → Config × Option GoError

/-! ## `strings.Trim` -/

/-- The Go function `strings.Trim s cutset`: `s` without its leading and
trailing code points contained in `cutset` (`TrimLeft`, then `TrimRight`). -/
def Trim (s cutset : String) : String :=
  ⟨List.rdropWhile (fun c => cutset.data.contains c)
    (List.dropWhile (fun c => cutset.data.contains c) s.data)⟩

/-! ## `path/filepath` on Unix -/

/-- The Go function `os.IsPathSeparator` on Unix. -/
def IsPathSeparator (c : Char) : Bool := c == '/'

/-- The Go function `filepath.IsAbs` on Unix. -/
def IsAbs (path : String) : Bool := path.data.head? == some '/'

/-- The loop state of `filepath.Clean`: the read index `r`, the bytes written
so far `out` (the write index `out.w` is `out.length`) and `dotdot`. -/
structure CleanState where
  r : Nat
  out : List Char
  dotdot : Nat
deriving DecidableEq, Repr

/-- The inner loop of the `..` case of `filepath.Clean`:
`for out.w > dotdot && !os.IsPathSeparator(out.index(out.w)) { out.w-- }`,
started at write index `w`; returns the final write index. -/
def backtrack (buf : List Char) (dotdot : Nat) : Nat → Nat
  | 0 => 0
  | w + 1 =>
    if w + 1 > dotdot && !IsPathSeparator (buf.getD (w + 1) '/') then
      backtrack buf dotdot w
    else w + 1

/-- One iteration of the main loop of `filepath.Clean` (the `switch`). -/
def cleanStep (path : List Char) (rooted : Bool) (s : CleanState) : CleanState :=
  let n := path.length
  let c := path.getD s.r '/'
  if IsPathSeparator c then
    -- empty path element
    { s with r := s.r + 1 }
  else if c == '.' && (s.r + 1 == n || IsPathSeparator (path.getD (s.r + 1) '/')) then
    -- . element
    { s with r := s.r + 1 }
  else if c == '.' && path.getD (s.r + 1) '/' == '.' &&
      (s.r + 2 == n || IsPathSeparator (path.getD (s.r + 2) '/')) then
    -- .. element: remove to last separator
    if s.out.length > s.dotdot then
      -- can backtrack
      { r := s.r + 2
        out := s.out.take (backtrack s.out s.dotdot (s.out.length - 1))
        dotdot := s.dotdot }
    else if !rooted then
      -- cannot backtrack, but not rooted, so append .. element
      let out1 := if s.out.length > 0 then s.out ++ ['/'] else s.out
      let out2 := out1 ++ ['.', '.']
      { r := s.r + 2, out := out2, dotdot := out2.length }
    else
      { s with r := s.r + 2 }
  else
    -- real path element: add slash if needed, then copy the element
    let out1 :=
      if (rooted && s.out.length != 1) || (!rooted && s.out.length != 0) then
        s.out ++ ['/']
      else s.out
    let elem := (path.drop s.r).takeWhile (fun ch => !IsPathSeparator ch)
    { r := s.r + elem.length, out := out1 ++ elem, dotdot := s.dotdot }

/-- The main loop of `filepath.Clean`, `for r < n { ... }`, run for at most
`fuel` iterations. -/
def cleanLoop (path : List Char) (rooted : Bool) : Nat → CleanState → CleanState
  | 0, s => s
  | fuel + 1, s =>
    if s.r < path.length then cleanLoop path rooted fuel (cleanStep path rooted s)
    else s

/-- The Go function `filepath.Clean` on Unix (no volume name, `FromSlash` is
the identity). Every iteration of the loop advances `r`, so `path.length`
iterations are enough (`cleanLoop_done`). -/
def Clean (path : String) : String :=
  if path.data.isEmpty then "."
  else
    let rooted := IsPathSeparator (path.data.getD 0 '/')
    let s0 : CleanState := if rooted then ⟨1, ['/'], 1⟩ else ⟨0, [], 0⟩
    let s := cleanLoop path.data rooted path.data.length s0
    -- Turn empty string into "."
    if s.out.length == 0 then "." else ⟨s.out⟩

/-- The Go function `filepath.Join` on Unix, for two elements: the elements
from the first non-empty one on are joined with a slash and cleaned. -/
def Join (a b : String) : String :=
  if a != "" then Clean (a ++ "/" ++ b)
  else if b != "" then Clean b
  else ""

/-- The Go function `filepath.Abs` on Unix. -/
def Abs (env : Env) (path : String) : String × Option GoError :=
  if IsAbs path then (Clean path, none)
  else
    match env.getwd with
    | (_, some err) => ("", some err)
    | (wd, none) => (Join wd path, none)

/-! ## `FilePath` -/

/-- The Go function `FilePath`: validates a file name and converts its path
from relative to absolute. -/
def FilePath (env : Env) (name : String) : String × Option GoError :=
  let fullpath := Trim name " "
  if fullpath.length < 1 then
    (fullpath, some (Errorf "Empty file name"))
  else
    match Abs env fullpath with
    | (fullpath, some err) => (fullpath, some err)
    | (fullpath, none) => (fullpath, env.stat fullpath)

/-! ## `strings.Join` and `fmt.Sprintf` -/

/-- The Go function `strings.Join`: the elements of `a` with `sep` between
each two. -/
def strings.Join : List String → String → String
  | [], _ => ""
  | [x], _ => x
  | x :: y :: rest, sep => x ++ sep ++ strings.Join (y :: rest) sep

/-- The operands the package passes to `fmt.Sprintf`. -/
inductive Value where
  | str (s : String)
  | uint (n : Nat)
  | bool (b : Bool)
  | strs (l : List String)
  | uints (l : List Nat)
  | smap (m : List (String × String))
deriving DecidableEq, Repr

/-- The order of Go strings, `a < b`: lexicographic on the code points (which
is the order of the UTF-8 bytes). -/
def strLess : List Char → List Char → Bool
  | _, [] => false
  | [], _ :: _ => true
  | a :: as, b :: bs =>
    if a.toNat < b.toNat then true
    else if b.toNat < a.toNat then false
    else strLess as bs

/-- The rendering of an operand under the verb `%v`: a string as itself, a
`uint` in decimal, a `bool` as `true` or `false`, a slice as its elements
between square brackets separated by a blank, a map as `map[k:v ...]` with
the keys in increasing order (the order `fmt` prints since Go 1.12; before,
the order was that of the map iteration, which is not fixed). -/
def Value.format : Value → String
  | .str s => s
  | .uint n => toString n
  | .bool b => if b then "true" else "false"
  | .strs l => "[" ++ strings.Join l " " ++ "]"
  | .uints l => "[" ++ strings.Join (l.map toString) " " ++ "]"
  | .smap m =>
    "map[" ++ strings.Join
      ((m.insertionSort (fun a b => strLess b.1.data a.1.data = false)).map (fun kv => kv.1 ++ ":" ++ kv.2)) " "
      ++ "]"

/-- The Go name of an operand's type, as `fmt` prints it for `%T`. -/
def Value.typeName : Value → String
  | .str _ => "string"
  | .uint _ => "uint"
  | .bool _ => "bool"
  | .strs _ => "[]string"
  | .uints _ => "[]uint"
  | .smap _ => "map[string]string"

/-- What `fmt.Sprintf` appends for operands no verb consumed:
nothing when none is left, `%!(EXTRA type=value, ...)` otherwise. -/
def extraArgs : List Value → List Char
  | [] => []
  | a :: args =>
    ("%!(EXTRA " ++ strings.Join ((a :: args).map
      (fun v => v.typeName ++ "=" ++ v.format)) ", " ++ ")").data

/-- The formatting loop of `fmt.Sprintf` for the verb `%v`, the only one the
package uses; `verb` tells that the character before was the `%` that opens
a verb. Every `%v` consumes the next operand (`%!v(MISSING)` when none is
left), `%%` is a percent sign, a `%` that ends the format is `%!(NOVERB)`.
Other verbs are outside this model and copied as they are. -/
def doPrintf : Bool → List Char → List Value → List Char
  | false, [], args => extraArgs args
  | true, [], args => "%!(NOVERB)".data ++ extraArgs args
  | false, c :: rest, args =>
    if c = '%' then doPrintf true rest args else c :: doPrintf false rest args
  | true, c :: rest, args =>
    if c = 'v' then
      match args with
      | [] => "%!v(MISSING)".data ++ doPrintf false rest []
      | a :: args1 => a.format.data ++ doPrintf false rest args1
    else if c = '%' then '%' :: doPrintf false rest args
    else '%' :: c :: doPrintf false rest args

/-- The Go function `fmt.Sprintf`. -/
def Sprintf (format : String) (args : List Value) : String :=
  ⟨doPrintf false format.data args⟩

/-! ## `Config.String` -/

/-- The line `Config.String` prints for one file: the inner `fmt.Sprintf`. -/
def fileLine (file : File) : String :=
  Sprintf "File: %v; Delay: %v; Pattern: %v; Boundary: %v; Increase: %v; Emails: %v; Limits: %v"
    [.str file.Log, .uint file.Delay, .str file.Pattern, .uint file.Boundary,
      .bool file.Increase, .strs file.Emails, .uints file.Limits]

/-- The block `Config.String` prints for one service: the body of the outer
loop. -/
def serviceBlock (service : Service) : String :=
  let files := service.Files.map fileLine
  Sprintf "%v\n\t%v" [.str service.Name, .str (strings.Join files "\n\t")]

/-- The Go method `Config.String`. -/
def Config.String (cfg : Config) : String :=
  let services := cfg.Observed.map serviceBlock
  Sprintf "Config: %v\n sender: %v\n---\n%v"
    [.str cfg.Path, .smap cfg.Sender, .str (strings.Join services "\n---\n")]

/-! ## The loggers and `DebugMode` -/

/-- The writers a logger of the package writes to: `os.Stdout`, `os.Stderr`
and `ioutil.Discard`. -/
inductive Writer where
  | Stdout
  | Stderr
  | Discard
deriving DecidableEq, Repr

/-- The Go struct `log.Logger`: its writer, its prefix and its flags. -/
structure Logger where
  out : Writer
  Prefix : String
  flag : Nat
deriving DecidableEq, Repr

/-- The Go function `log.New`. -/
def log.New (out : Writer) (pfx : String) (flag : Nat) : Logger := ⟨out, pfx, flag⟩

/-- The Go constant `log.Ldate`, `1 << iota` at `iota = 0`. -/
def log.Ldate : Nat := 1 <<< 0
/-- The Go constant `log.Ltime`. -/
def log.Ltime : Nat := 1 <<< 1
/-- The Go constant `log.Lmicroseconds`. -/
def log.Lmicroseconds : Nat := 1 <<< 2
/-- The Go constant `log.Llongfile`. -/
def log.Llongfile : Nat := 1 <<< 3
/-- The Go constant `log.Lshortfile`. -/
def log.Lshortfile : Nat := 1 <<< 4

/-- The package-level variables `LoggerError` and `LoggerDebug`. -/
structure Loggers where
  LoggerError : Logger
  LoggerDebug : Logger
deriving DecidableEq, Repr

/-- The initial values of the package-level variables. -/
def Loggers.init : Loggers :=
  ⟨log.New .Stderr "LogChecker ERROR: " (log.Ldate ||| log.Ltime ||| log.Lshortfile),
   log.New .Discard "LogChecker DEBUG: " (log.Ldate ||| log.Lmicroseconds ||| log.Lshortfile)⟩

/-- The Go function `DebugMode`: initialization of the logger handlers. -/
def DebugMode (debugmode : Bool) (g : Loggers) : Loggers :=
  let debugHandle := if debugmode then Writer.Stdout else Writer.Discard
  { g with
    LoggerDebug := log.New debugHandle "LogChecker DEBUG: "
      (log.Ldate ||| log.Lmicroseconds ||| log.Lshortfile) }

/-- A line handed to a writer by `Logger.Println`: the writer, the prefix of
the logger and the text. The date, time and source position that the flags
add to the line are not part of the model. -/
structure LogLine where
  out : Writer
  Prefix : String
  text : String
deriving DecidableEq, Repr

/-- The Go method `Logger.Println`, as the line it writes. -/
def Logger.Println (l : Logger) (text : String) : LogLine := ⟨l.out, l.Prefix, text⟩

/-! ## `json.Unmarshal` and `InitConfig` -/

/-- The Go function `json.Unmarshal` into a `*Config`: the input is checked
for well-formedness first, and the destination is only written to when the
check passes. -/
def json.Unmarshal (env : Env) (data : Bytes) (cfg : Config) : Config × Option GoError :=
  match env.checkValid data with
  | some err => (cfg, some err)
  | none => env.decode data cfg

/-- What a call of `InitConfig` leaves behind: the `LogChecker` behind the
pointer, the error returned, and the lines written to the error logger. -/
structure InitResult where
  logger : LogChecker
  err : Option GoError
  logged : List LogLine
deriving DecidableEq, Repr

/-- The Go function `InitConfig`: initializes configuration from a file. -/
def InitConfig (env : Env) (g : Loggers) (logger : LogChecker) (name : String) : InitResult :=
  match FilePath env name with
  | (_, some err) =>
    ⟨logger, some err, [g.LoggerError.Println "Can't check config file"]⟩
  | (path, none) =>
    let logger1 : LogChecker := { logger with Cfg := { logger.Cfg with Path := path } }
    let jsondata := (env.readFile path).1
    let rerr := (env.readFile path).2
    let logged1 :=
      if rerr.isSome then [g.LoggerError.Println "Can't read config file"] else []
    let res := json.Unmarshal env jsondata logger1.Cfg
    let logged2 :=
      if res.2.isSome then [g.LoggerError.Println "Can't parse config file"] else []
    ⟨{ logger1 with Cfg := res.1 }, res.2, logged1 ++ logged2⟩

/-! ## Concrete environments -/

/-- The error `os.Stat` returns for a path that does not exist. -/
def ENOENT : GoError := ⟨"no such file or directory"⟩

/-- The error of a read that fails after the file was opened. -/
def EIO : GoError := ⟨"input/output error"⟩

/-- The error `json.Unmarshal` returns for an input that is not well-formed. -/
def SyntaxError : GoError := ⟨"unexpected end of JSON input"⟩

/-- An environment with working directory `/srv` in which the paths of
`files` exist and every other path does not; a file that exists is read
whole, and the JSON scan accepts exactly the empty object. -/
def envWith (files : List (String × Bytes)) : Env where
  getwd := ("/srv", none)
  stat := fun p => if (files.lookup p).isSome then none else some ENOENT
  readFile := fun p =>
    match files.lookup p with
    | some data => (data, none)
    | none => ([], some ENOENT)
  checkValid := fun data => if data = [123, 125] then none else some SyntaxError
  decode := fun _ cfg => (cfg, none)

/-- The environment `envWith files` on a failing disk: every read of an
existing file returns the first two bytes of the file and then fails. -/
def envFailingRead (files : List (String × Bytes)) : Env :=
  { envWith files with
    readFile := fun p =>
      match files.lookup p with
      | some data => (data.take 2, some EIO)
      | none => ([], some ENOENT) }

/-- The error `json.Unmarshal` returns for a well-formed input that holds a
number where the field `observed` expects an array. -/
def UnmarshalTypeError : GoError :=
  ⟨"json: cannot unmarshal number into Go value of type []logchecker.Service"⟩

/-- The bytes of the JSON text `{"sender":{"user":"x"},"observed":5}`. -/
def senderThenNumber : Bytes :=
  ("\x7b\"sender\":\x7b\"user\":\"x\"\x7d,\"observed\":5\x7d").data.map Char.toNat

/-- An environment with working directory `/srv` and the one file
`/srv/config.json`, which holds the text `senderThenNumber` and a line feed,
on a failing disk: the read returns the text and fails before the last
byte. The scan accepts the text, which is well-formed JSON, and the decoder
does on it what Go does: it stores the entry `user` in the map `Sender`,
keeping the other entries, and reports the number found for `observed`. -/
def envFailingReadTyped : Env where
  getwd := ("/srv", none)
  stat := fun p => if p = "/srv/config.json" then none else some ENOENT
  readFile := fun p =>
    if p = "/srv/config.json" then (senderThenNumber, some EIO) else ([], some ENOENT)
  checkValid := fun data =>
    if data = senderThenNumber ∨ data = [123, 125] then none else some SyntaxError
  decode := fun data cfg =>
    if data = senderThenNumber then
      ({ cfg with Sender := ("user", "x") :: cfg.Sender.filter (fun kv => kv.1 != "user") },
        some UnmarshalTypeError)
    else (cfg, none)

/-! ## Services, validation and backends

The methods `AddService`, `HasService` and `Validate`, the setting
`Cfg.Storage` and the field `Backend` are called by `logchecker_test.go` but
are not defined in `logchecker.go`. They are modelled from the
specification (sections 3, 6 and 7). -/

/-- Modelled from the spec: the state-store backend behind `logger.Backend`
(section 4.1), which is missing from `logchecker.go`; only its identity, the
result of `GetName`, is kept. -/
structure Backend where
  name : String
deriving DecidableEq, Repr

/-- Modelled from the spec: the method `GetName` of a backend, its identity
(section 4.1). -/
def Backend.GetName (b : Backend) : String := b.name

/-- Modelled from the spec: the named-backend registry of section 6, missing
from `logchecker.go`. Selecting `memory` activates the in-memory state store,
whose `GetName` is `Memory` (section 8); the specification names no other
backend. -/
def backends : List (String × Backend) := [("memory", ⟨"Memory"⟩)]

/-- Modelled from the spec: the `LogChecker` the test suite works on, which
carries, besides the fields of the struct in `logchecker.go`, the setting
`Cfg.Storage` and the selected `Backend` (nil until `Validate` selects one). -/
structure Checker where
  logger : LogChecker
  Storage : String
  Backend : Option Backend
deriving DecidableEq, Repr

/-- The checker `New()` returns, with no storage setting and no backend. -/
def Checker.New : Checker := ⟨Logchecker.New, "", none⟩

/-- The names of the observed services, in configuration order. -/
def Checker.names (c : Checker) : List String := c.logger.Cfg.Observed.map (fun s => s.Name)

/-- Modelled from the spec: the method `HasService`, missing from
`logchecker.go`: whether a service of that name is registered (section 3,
names identify services). The specification gives the second argument of the
calls in the test suite no meaning; the answer does not depend on it. -/
def HasService (c : Checker) (serv : Service) (_lock : Bool) : Bool :=
  c.logger.Cfg.Observed.any (fun s => s.Name == serv.Name)

/-- Modelled from the spec: the method `AddService`, missing from
`logchecker.go`: a service whose name is empty or already registered is
refused (section 3: the name must be unique within a configuration and
non-empty), any other is appended to `Cfg.Observed`. The test suite registers
a service without files, so files are not asked for here. -/
def AddService (c : Checker) (serv : Service) : Checker × Option GoError :=
  if serv.Name.length == 0 then
    (c, some ⟨"service name is empty"⟩)
  else if HasService c serv true then
    (c, some ⟨"service already exists"⟩)
  else
    ({ c with
        logger := { c.logger with
          Cfg := { c.logger.Cfg with Observed := c.logger.Cfg.Observed ++ [serv] } } },
      none)

/-- Modelled from the spec: the four fields of `Sender` that `Validate`,
missing from `logchecker.go`, asks for (section 3). -/
def senderFields : List String := ["user", "password", "host", "addr"]

/-- The value of a key of the map `Sender`; as in Go, a key that is absent
reads as the empty string. -/
def senderField (cfg : Config) (key : String) : String := (cfg.Sender.lookup key).getD ""

/-- The watched files of all the observed services, in configuration order. -/
def Checker.files (c : Checker) : List File :=
  c.logger.Cfg.Observed.flatMap (fun s => s.Files)

/-- Modelled from the spec: what section 3 and section 6 ask of a watched
file, checked by `Validate`, which is missing from `logchecker.go`: a path
that can be named (not empty), a delay above 0, and limits in strictly
ascending order (duplicate or out-of-order limits are a configuration error)
that are all above the boundary. -/
def fileValid (file : File) : Bool :=
  file.Log != "" && decide (0 < file.Delay) &&
    decide (file.Limits.Pairwise (fun a b => a < b)) &&
    file.Limits.all (fun l => decide (file.Boundary < l))

/-- Modelled from the spec: the first configuration error `Validate`, missing
from `logchecker.go`, finds, if any. The errors are those the specification
assigns to validation: a service name that is empty or used twice (sections
3 and 7); a file that is not valid, see `fileValid`, or whose path another
file has (sections 1, 3 and 6); a sender field that is missing or empty once
any service is registered (section 3); a storage name that is not in the
backend registry (section 6). Section 3 also calls a service with no files
invalid, but the test suite requires `Validate` to accept one (`TestNew`,
the service `TestSrv`), and the test is followed here. -/
def configError (c : Checker) : Option GoError :=
  if c.names.any (fun n => n == "") then some ⟨"empty service name"⟩
  else if ¬ c.names.Nodup then some ⟨"duplicate service name"⟩
  else if c.files.any (fun file => !fileValid file) then some ⟨"invalid file"⟩
  else if ¬ (c.files.map (fun file => file.Log)).Nodup then some ⟨"duplicate file"⟩
  else if !c.logger.Cfg.Observed.isEmpty &&
      senderFields.any (fun key => senderField c.logger.Cfg key == "") then
    some ⟨"incomplete sender"⟩
  else if (backends.lookup c.Storage).isNone then some ⟨"unknown backend"⟩
  else none

/-- Modelled from the spec: the method `Validate`, missing from
`logchecker.go`: it returns the configuration error found, see
`configError`, and when there is none selects the backend that `Storage`
names (section 6). -/
def Validate (c : Checker) : Checker × Option GoError :=
  match configError c with
  | some err => (c, some err)
  | none => ({ c with Backend := backends.lookup c.Storage }, none)

/-- The sender of the test suite with all four fields set. -/
def fullSender : List (String × String) :=
  [("user", "user@host.com"), ("password", "password"), ("host", "smtp.host.com"),
    ("addr", "smtp.host.com:25")]

/-! ## Lemmas on `strings.Trim` and `filepath.Clean` -/

theorem Trim_data (s cutset : String) :
    (Trim s cutset).data = List.rdropWhile (fun c => cutset.data.contains c)
      (List.dropWhile (fun c => cutset.data.contains c) s.data) := rfl

theorem length_lt_one_iff (s : String) : s.length < 1 ↔ s = "" := by
  constructor
  · intro h
    apply String.ext
    have h0 : s.data.length = 0 := by
      have : s.length = s.data.length := rfl
      omega
    simpa using List.length_eq_zero.mp h0
  · rintro rfl
    decide

/-- A name made only of spaces is trimmed to the empty string. -/
theorem Trim_spaces (name : String) (h : ∀ c ∈ name.data, c = ' ') :
    Trim name " " = "" := by
  apply String.ext
  rw [Trim_data]
  have hd : List.dropWhile (fun c => " ".data.contains c) name.data = [] := by
    rw [List.dropWhile_eq_nil_iff]
    intro c hc
    rw [h c hc]
    decide
  rw [hd]
  rfl

/-- A name that neither starts nor ends with a space is left as it is. -/
theorem Trim_id (name : String) (hfirst : name.data.head? ≠ some ' ')
    (hlast : name.data.getLast? ≠ some ' ') : Trim name " " = name := by
  apply String.ext
  rw [Trim_data]
  have hp : ∀ c : Char, (" ".data.contains c) = true ↔ c = ' ' := by
    intro c
    simp [List.contains]
  have hd : List.dropWhile (fun c => " ".data.contains c) name.data = name.data := by
    cases hn : name.data with
    | nil => rfl
    | cons a l =>
      rw [hn] at hfirst
      have ha : a ≠ ' ' := by simpa using hfirst
      have : (" ".data.contains a) = false := by
        rw [Bool.eq_false_iff]
        intro hc
        exact ha ((hp a).mp hc)
      simp [List.dropWhile, ha]
  rw [hd, List.rdropWhile_eq_self_iff]
  intro hne hc
  have := (hp _).mp hc
  apply hlast
  rw [List.getLast?_eq_getLast _ hne, this]

/-- The model of `filepath.Clean` on the table of the tests of the Go
library (`cleantests` of `path_test.go`). -/
theorem Clean_table :
    [Clean "abc", Clean "abc/def", Clean "a/b/c", Clean ".", Clean "..", Clean "../..",
      Clean "../../abc", Clean "/abc", Clean "/", Clean "",
      Clean "abc/", Clean "abc/def/", Clean "a/b/c/", Clean "./", Clean "../",
      Clean "../../", Clean "/abc/",
      Clean "abc//def//ghi", Clean "//abc", Clean "///abc", Clean "//abc//", Clean "abc//",
      Clean "abc/./def", Clean "/./abc/def", Clean "abc/.",
      Clean "abc/def/ghi/../jkl", Clean "abc/def/../ghi/../jkl", Clean "abc/def/..",
      Clean "abc/def/../..", Clean "/abc/def/../..", Clean "abc/def/../../..",
      Clean "/abc/def/../../..", Clean "abc/def/../../../ghi/jkl/../../../mno",
      Clean "/../abc",
      Clean "abc/./../def", Clean "abc//./../def", Clean "abc/../../././../def"]
    = ["abc", "abc/def", "a/b/c", ".", "..", "../..",
      "../../abc", "/abc", "/", ".",
      "abc", "abc/def", "a/b/c", ".", "..",
      "../..", "/abc",
      "abc/def/ghi", "/abc", "/abc", "/abc", "abc",
      "abc/def", "/abc/def", "abc",
      "abc/def/jkl", "abc/jkl", "abc",
      ".", "/", "..",
      "/", "../../mno",
      "/abc",
      "def", "def", "../../def"] := by
  decide

/-- A path element that starts at a byte other than a separator is not
empty. -/
theorem elem_length_pos (path : List Char) (r : Nat) (h : r < path.length)
    (hsep : IsPathSeparator (path.getD r '/') = false) :
    0 < ((path.drop r).takeWhile (fun ch => !IsPathSeparator ch)).length := by
  have hget : path.getD r '/' = path[r] := by simp [List.getD, h]
  rw [List.drop_eq_getElem_cons h]
  rw [hget] at hsep
  simp [List.takeWhile, hsep]

/-- An iteration of the loop of `filepath.Clean` advances the read index. -/
theorem cleanStep_r (path : List Char) (rooted : Bool) (s : CleanState)
    (h : s.r < path.length) : s.r < (cleanStep path rooted s).r := by
  unfold cleanStep
  simp only
  have hpos := fun hs => elem_length_pos path s.r h hs
  split_ifs with h1 h2 h3 h4 h5 h6 <;> dsimp only <;>
    first
    | omega
    | (specialize hpos (by simpa using h1); omega)

/-- The loop of `filepath.Clean` stops because the path is exhausted, not
because the fuel is: `path.length` iterations are enough. -/
theorem cleanLoop_done (path : List Char) (rooted : Bool) :
    ∀ (fuel : Nat) (s : CleanState), path.length ≤ s.r + fuel →
      path.length ≤ (cleanLoop path rooted fuel s).r := by
  intro fuel
  induction fuel with
  | zero => intro s h; simpa [cleanLoop] using h
  | succ k ih =>
    intro s h
    unfold cleanLoop
    split_ifs with hr
    · apply ih
      have := cleanStep_r path rooted s hr
      omega
    · omega

/-- Fuel beyond what the loop of `filepath.Clean` needs changes nothing. -/
theorem cleanLoop_fuel (path : List Char) (rooted : Bool) (k : Nat) :
    ∀ (fuel : Nat) (s : CleanState), path.length ≤ s.r + fuel →
      cleanLoop path rooted (fuel + k) s = cleanLoop path rooted fuel s := by
  intro fuel
  induction fuel with
  | zero =>
    intro s h
    cases k with
    | zero => rfl
    | succ k =>
      have hr : ¬ s.r < path.length := by omega
      simp [cleanLoop, hr]
  | succ n ih =>
    intro s h
    have e : n + 1 + k = (n + k) + 1 := by omega
    rw [e]
    unfold cleanLoop
    split_ifs with hr
    · apply ih
      have := cleanStep_r path rooted s hr
      omega
    · rfl

/-! ## Lemmas on `FilePath` and `InitConfig` -/

theorem FilePath_empty (env : Env) (name : String) (h : Trim name " " = "") :
    FilePath env name = ("", some (Errorf "Empty file name")) := by
  unfold FilePath
  simp only [h]
  rfl

theorem FilePath_nonempty (env : Env) (name : String) (h : Trim name " " ≠ "") :
    FilePath env name =
      ((Abs env (Trim name " ")).1,
        match (Abs env (Trim name " ")).2 with
        | some err => some err
        | none => env.stat (Abs env (Trim name " ")).1) := by
  unfold FilePath
  have hl : ¬ (Trim name " ").length < 1 := by
    rw [length_lt_one_iff]
    exact h
  simp only [hl, if_false]
  rcases hA : Abs env (Trim name " ") with ⟨q, _ | err⟩ <;> rfl

theorem InitConfig_of_FilePath_ok (env : Env) (g : Loggers) (logger : LogChecker)
    (name p : String) (h : FilePath env name = (p, none)) :
    (InitConfig env g logger name).err
        = (json.Unmarshal env (env.readFile p).1 ⟨p, logger.Cfg.Sender, logger.Cfg.Observed⟩).2 ∧
      (InitConfig env g logger name).logger.Cfg
        = (json.Unmarshal env (env.readFile p).1 ⟨p, logger.Cfg.Sender, logger.Cfg.Observed⟩).1 := by
  unfold InitConfig
  rw [h]
  exact ⟨rfl, rfl⟩

/-! ## `FilePath` -/

/-- C1: `FilePath` returns a nil error exactly when the name, once its leading
and trailing spaces are removed, is non-empty, `filepath.Abs` of it succeeds
and `os.Stat` of the absolute path succeeds. A name that is empty or made
only of spaces gets the error `Empty file name` with the empty path, and a
name whose absolute path does not exist gets a non-nil error. -/
theorem FilePath_nil_iff (env : Env) (name : String) :
    ((FilePath env name).2 = none ↔
      (Trim name " " ≠ "" ∧ (Abs env (Trim name " ")).2 = none ∧
        env.stat (Abs env (Trim name " ")).1 = none)) ∧
    ((∀ c ∈ name.data, c = ' ') →
      FilePath env name = ("", some ⟨"Empty file name"⟩)) ∧
    (env.stat (Abs env (Trim name " ")).1 ≠ none → (FilePath env name).2 ≠ none) := by
  by_cases h : Trim name " " = ""
  · have hF := FilePath_empty env name h
    refine ⟨?_, fun _ => hF, fun _ => ?_⟩
    · rw [hF]
      constructor
      · intro h2
        cases h2
      · intro h2
        exact absurd h h2.1
    · rw [hF]
      simp
  · have hF := FilePath_nonempty env name h
    refine ⟨?_, fun hsp => absurd (Trim_spaces name hsp) h, ?_⟩
    · rw [hF]
      cases hA : (Abs env (Trim name " ")).2 with
      | none => simp [h]
      | some err => simp
    · intro hst
      rw [hF]
      cases hA : (Abs env (Trim name " ")).2 with
      | none => simpa using hst
      | some err => simp

/-- C1, at concrete inputs: in an environment where only `/srv/config.json`
exists, the name ` config.json ` resolves and the name `invalid_name` does
not. -/
theorem FilePath_nil_iff_witness :
    (FilePath (envWith [("/srv/config.json", [123, 125])]) " config.json ").2 = none ∧
    FilePath (envWith [("/srv/config.json", [123, 125])]) "   "
      = ("", some ⟨"Empty file name"⟩) ∧
    (FilePath (envWith [("/srv/config.json", [123, 125])]) "invalid_name").2 ≠ none :=
  ⟨(FilePath_nil_iff (envWith [("/srv/config.json", [123, 125])]) " config.json ").1.mpr
      (by decide),
    (FilePath_nil_iff (envWith [("/srv/config.json", [123, 125])]) "   ").2.1 (by decide),
    (FilePath_nil_iff (envWith [("/srv/config.json", [123, 125])]) "invalid_name").2.2
      (by decide)⟩

/-- C4, as stated, fails: the path `/tmp/a ` (with a space at its end) is
absolute and lexically clean and names an existing file, yet `FilePath`
trims it, looks for `/tmp/a` and returns that path with an error. -/
theorem FilePath_trailing_space :
    IsAbs "/tmp/a " = true ∧ Clean "/tmp/a " = "/tmp/a " ∧
    Join "/tmp" "a " = "/tmp/a " ∧
    (envWith [("/tmp/a ", [123, 125])]).stat "/tmp/a " = none ∧
    FilePath (envWith [("/tmp/a ", [123, 125])]) "/tmp/a " = ("/tmp/a", some ENOENT) ∧
    FilePath (envWith [("/tmp/a ", [123, 125])]) "/tmp/a " ≠ ("/tmp/a ", none) := by
  decide

/-- C4, amended: for every absolute, lexically clean path that does not end
with a space and names an existing file, `FilePath` returns exactly that
path, unchanged, with a nil error. -/
theorem FilePath_clean_abs (env : Env) (name : String) (habs : IsAbs name = true)
    (hclean : Clean name = name) (hlast : name.data.getLast? ≠ some ' ')
    (hstat : env.stat name = none) : FilePath env name = (name, none) := by
  have hfirst : name.data.head? ≠ some ' ' := by
    unfold IsAbs at habs
    intro hsp
    rw [hsp] at habs
    exact absurd habs (by decide)
  have hT : Trim name " " = name := Trim_id name hfirst hlast
  have hne : Trim name " " ≠ "" := by
    rw [hT]
    rintro rfl
    exact absurd habs (by decide)
  rw [FilePath_nonempty env name hne, hT]
  have hA : Abs env name = (name, none) := by
    unfold Abs
    rw [if_pos habs, hclean]
  rw [hA, hstat]

/-- C4, amended, at a concrete input: the path `/srv/config.example.json`. -/
theorem FilePath_clean_abs_witness :
    FilePath (envWith [("/srv/config.example.json", [123, 125])]) "/srv/config.example.json"
      = ("/srv/config.example.json", none) :=
  FilePath_clean_abs (envWith [("/srv/config.example.json", [123, 125])])
    "/srv/config.example.json" (by decide) (by decide) (by decide) (by decide)

/-! ## `InitConfig` -/

/-- C3: when `FilePath name` returns an error, `InitConfig` returns that same
error and leaves the `LogChecker`, so `Cfg.Path`, `Cfg.Sender` and
`Cfg.Observed`, exactly as it was. -/
theorem InitConfig_FilePath_error (env : Env) (g : Loggers) (logger : LogChecker)
    (name : String) (err : GoError) (h : (FilePath env name).2 = some err) :
    (InitConfig env g logger name).err = some err ∧
    (InitConfig env g logger name).logger = logger ∧
    (InitConfig env g logger name).logger.Cfg.Path = logger.Cfg.Path ∧
    (InitConfig env g logger name).logger.Cfg.Sender = logger.Cfg.Sender ∧
    (InitConfig env g logger name).logger.Cfg.Observed = logger.Cfg.Observed := by
  unfold InitConfig
  rcases hF : FilePath env name with ⟨p, _ | e⟩
  · rw [hF] at h
    cases h
  · rw [hF] at h
    cases h
    exact ⟨rfl, rfl, rfl, rfl, rfl⟩

/-- C3, at a concrete input: the name `invalid_name` where no file exists. -/
theorem InitConfig_FilePath_error_witness :
    (InitConfig (envWith []) Loggers.init
        ⟨"", ⟨"/old", [("user", "u")], [⟨"Nginx", []⟩]⟩⟩ "invalid_name").err = some ENOENT ∧
    (InitConfig (envWith []) Loggers.init
        ⟨"", ⟨"/old", [("user", "u")], [⟨"Nginx", []⟩]⟩⟩ "invalid_name").logger
      = ⟨"", ⟨"/old", [("user", "u")], [⟨"Nginx", []⟩]⟩⟩ :=
  ⟨(InitConfig_FilePath_error (envWith []) Loggers.init
      ⟨"", ⟨"/old", [("user", "u")], [⟨"Nginx", []⟩]⟩⟩ "invalid_name" ENOENT (by decide)).1,
   (InitConfig_FilePath_error (envWith []) Loggers.init
      ⟨"", ⟨"/old", [("user", "u")], [⟨"Nginx", []⟩]⟩⟩ "invalid_name" ENOENT (by decide)).2.1⟩

/-- What `InitConfig` does guarantee after `FilePath` succeeded with path
`p`: when the bytes the read returned are not well-formed JSON (as is the
empty input of a read that yields nothing, if the scan rejects it), the call
returns the error of the scan with `Cfg.Path` equal to `p` and `Cfg.Sender`
and `Cfg.Observed` as before. -/
theorem InitConfig_scan_rejected (env : Env) (g : Loggers) (logger : LogChecker)
    (name p : String) (hp : FilePath env name = (p, none))
    (hbad : env.checkValid (env.readFile p).1 ≠ none) :
    (InitConfig env g logger name).err ≠ none ∧
    (InitConfig env g logger name).err = env.checkValid (env.readFile p).1 ∧
    (InitConfig env g logger name).logger.Cfg.Path = p ∧
    (InitConfig env g logger name).logger.Cfg.Sender = logger.Cfg.Sender ∧
    (InitConfig env g logger name).logger.Cfg.Observed = logger.Cfg.Observed := by
  obtain ⟨herr, hcfg⟩ := InitConfig_of_FilePath_ok env g logger name p hp
  rw [herr, hcfg]
  unfold json.Unmarshal
  cases hc : env.checkValid (env.readFile p).1 with
  | none => exact absurd hc hbad
  | some e => simp

/-- C10, evaluated where it fails: the file `/srv/config.json` exists and the
read fails after returning the well-formed text
`{"sender":{"user":"x"},"observed":5}`. `InitConfig` stores the path, reports
the failed read to the error logger and goes on to parse the bytes read: the
call fails, with `Cfg.Path` equal to the path, but `Cfg.Sender` is no longer
what it was before the call. -/
theorem InitConfig_failed_read_changes_sender :
    FilePath envFailingReadTyped "config.json" = ("/srv/config.json", none) ∧
    (envFailingReadTyped.readFile "/srv/config.json").2 = some EIO ∧
    (InitConfig envFailingReadTyped Loggers.init
      ⟨"", ⟨"/old", [("user", "u"), ("host", "h")], [⟨"Nginx", []⟩]⟩⟩ "config.json").err
        = some UnmarshalTypeError ∧
    (InitConfig envFailingReadTyped Loggers.init
      ⟨"", ⟨"/old", [("user", "u"), ("host", "h")], [⟨"Nginx", []⟩]⟩⟩ "config.json").logger.Cfg
        = ⟨"/srv/config.json", [("user", "x"), ("host", "h")], [⟨"Nginx", []⟩]⟩ ∧
    (InitConfig envFailingReadTyped Loggers.init
      ⟨"", ⟨"/old", [("user", "u"), ("host", "h")], [⟨"Nginx", []⟩]⟩⟩ "config.json").logger.Cfg.Sender
        ≠ [("user", "u"), ("host", "h")] ∧
    (InitConfig envFailingReadTyped Loggers.init
      ⟨"", ⟨"/old", [("user", "u"), ("host", "h")], [⟨"Nginx", []⟩]⟩⟩ "config.json").logged
        = [⟨.Stderr, "LogChecker ERROR: ", "Can't read config file"⟩,
           ⟨.Stderr, "LogChecker ERROR: ", "Can't parse config file"⟩] := by
  decide

/-- C2, evaluated where it fails: the file `/srv/config.json` exists and
holds an empty JSON object followed by more bytes, and the read fails after
the first two bytes. `InitConfig` reports the failed read to the error
logger, goes on to parse the two bytes read, and returns a nil error. -/
theorem InitConfig_failed_read_nil :
    (FilePath (envFailingRead [("/srv/config.json", [123, 125, 10, 10])]) "config.json")
      = ("/srv/config.json", none) ∧
    ((envFailingRead [("/srv/config.json", [123, 125, 10, 10])]).readFile
      "/srv/config.json") = ([123, 125], some EIO) ∧
    (InitConfig (envFailingRead [("/srv/config.json", [123, 125, 10, 10])]) Loggers.init
      New "config.json").err = none ∧
    (InitConfig (envFailingRead [("/srv/config.json", [123, 125, 10, 10])]) Loggers.init
      New "config.json").logged
        = [⟨.Stderr, "LogChecker ERROR: ", "Can't read config file"⟩] := by
  decide

/-! ## `DebugMode` -/

/-- C8: after `DebugMode b` the debug logger has prefix `LogChecker DEBUG: `
and flags `Ldate|Lmicroseconds|Lshortfile`, which is 21, and writes to
standard output exactly when `b` is true, its output being discarded when `b`
is false, as it is before any call. `DebugMode` never changes the error
logger, which keeps prefix `LogChecker ERROR: ` and flags
`Ldate|Ltime|Lshortfile`, which is 19, through any sequence of calls. -/
theorem DebugMode_loggers (b : Bool) (g : Loggers) :
    (DebugMode b g).LoggerDebug.Prefix = "LogChecker DEBUG: " ∧
    (DebugMode b g).LoggerDebug.flag = log.Ldate ||| log.Lmicroseconds ||| log.Lshortfile ∧
    (DebugMode b g).LoggerDebug.flag = 21 ∧
    ((DebugMode b g).LoggerDebug.out = Writer.Stdout ↔ b = true) ∧
    ((DebugMode b g).LoggerDebug.out = Writer.Discard ↔ b = false) ∧
    Loggers.init.LoggerDebug = ⟨Writer.Discard, "LogChecker DEBUG: ", 21⟩ ∧
    (DebugMode b g).LoggerError = g.LoggerError ∧
    Loggers.init.LoggerError = ⟨Writer.Stderr, "LogChecker ERROR: ", 19⟩ ∧
    log.Ldate ||| log.Ltime ||| log.Lshortfile = 19 ∧
    (∀ calls : List Bool,
      (calls.foldl (fun gs c => DebugMode c gs) Loggers.init).LoggerError
        = ⟨Writer.Stderr, "LogChecker ERROR: ", 19⟩) := by
  have h21 : log.Ldate ||| log.Lmicroseconds ||| log.Lshortfile = 21 := by decide
  refine ⟨rfl, rfl, h21, ?_, ?_, by decide, rfl, by decide, by decide, ?_⟩
  · cases b <;> simp [DebugMode, log.New]
  · cases b <;> simp [DebugMode, log.New]
  · intro calls
    have key : ∀ (cs : List Bool) (gs : Loggers),
        (cs.foldl (fun gs c => DebugMode c gs) gs).LoggerError = gs.LoggerError := by
      intro cs
      induction cs with
      | nil => intro gs; rfl
      | cons c cs ih =>
        intro gs
        rw [List.foldl_cons, ih]
        rfl
    rw [key]
    decide

/-! ## `Config.String` -/

theorem Sprintf_config (a b c : Value) :
    Sprintf "Config: %v\n sender: %v\n---\n%v" [a, b, c]
      = "Config: " ++ a.format ++ "\n sender: " ++ b.format ++ "\n---\n" ++ c.format := by
  apply String.ext
  simp [Sprintf, doPrintf, extraArgs]

theorem Sprintf_block (a b : Value) :
    Sprintf "%v\n\t%v" [a, b] = a.format ++ "\n\t" ++ b.format := by
  apply String.ext
  simp [Sprintf, doPrintf, extraArgs]

theorem Sprintf_file (a b c d e f g : Value) :
    Sprintf "File: %v; Delay: %v; Pattern: %v; Boundary: %v; Increase: %v; Emails: %v; Limits: %v"
        [a, b, c, d, e, f, g]
      = "File: " ++ a.format ++ "; Delay: " ++ b.format ++ "; Pattern: " ++ c.format ++
        "; Boundary: " ++ d.format ++ "; Increase: " ++ e.format ++ "; Emails: " ++ f.format ++
        "; Limits: " ++ g.format := by
  apply String.ext
  simp [Sprintf, doPrintf, extraArgs]

theorem intercalate_go (sep : String) :
    ∀ (l : List String) (acc x : String),
      String.intercalate.go (acc ++ x) sep l = acc ++ String.intercalate.go x sep l := by
  intro l
  induction l with
  | nil => intro acc x; rfl
  | cons a l ih =>
    intro acc x
    simp only [String.intercalate.go]
    rw [← ih]
    simp only [String.append_assoc]

/-- The model of `strings.Join` is the library function `String.intercalate`. -/
theorem Join_eq_intercalate (sep : String) :
    ∀ l : List String, strings.Join l sep = String.intercalate sep l := by
  intro l
  induction l with
  | nil => rfl
  | cons x l ih =>
    cases l with
    | nil => rfl
    | cons y rest =>
      simp only [strings.Join, ih]
      simp only [String.intercalate, String.intercalate.go]
      rw [String.append_assoc, intercalate_go, String.append_assoc]

/-- The line of a file, written out. -/
theorem fileLine_eq (file : File) :
    fileLine file =
      "File: " ++ file.Log ++ "; Delay: " ++ toString file.Delay ++
        "; Pattern: " ++ file.Pattern ++ "; Boundary: " ++ toString file.Boundary ++
        "; Increase: " ++ (if file.Increase then "true" else "false") ++
        "; Emails: " ++ ("[" ++ String.intercalate " " file.Emails ++ "]") ++
        "; Limits: " ++ ("[" ++ String.intercalate " " (file.Limits.map toString) ++ "]") := by
  unfold fileLine
  rw [Sprintf_file]
  simp only [Value.format, Join_eq_intercalate]

/-- C9: for every `Config`, the zero value included, `Config.String` is not
empty: it is `Config: `, the path, a line feed and ` sender: `, the formatted
sender (`map[`, the entries `key:value` in the order of the keys separated by
a blank, `]`), the separator line `---`, and then one block per observed
service, in configuration order, joined by the separator line; each block is
the name of the service, a line feed and a tab, and one line per file of the
service, in order, joined by a line feed and a tab, the line of a file
listing its seven fields. The right-hand side is written with the library
function `String.intercalate`, not with the functions of the model. -/
theorem Config_String_eq (cfg : Config) :
    cfg.String ≠ "" ∧
    0 < cfg.String.length ∧
    cfg.String =
      "Config: " ++ cfg.Path ++ "\n sender: " ++
        ("map[" ++ String.intercalate " "
          ((cfg.Sender.insertionSort (fun a b => strLess b.1.data a.1.data = false)).map
            (fun kv => kv.1 ++ ":" ++ kv.2)) ++ "]") ++
        "\n---\n" ++
        String.intercalate "\n---\n"
          (cfg.Observed.map (fun service =>
            service.Name ++ "\n\t" ++
              String.intercalate "\n\t" (service.Files.map (fun file =>
                "File: " ++ file.Log ++ "; Delay: " ++ toString file.Delay ++
                "; Pattern: " ++ file.Pattern ++ "; Boundary: " ++ toString file.Boundary ++
                "; Increase: " ++ (if file.Increase then "true" else "false") ++
                "; Emails: " ++ ("[" ++ String.intercalate " " file.Emails ++ "]") ++
                "; Limits: " ++
                  ("[" ++ String.intercalate " " (file.Limits.map toString) ++ "]"))))) ∧
    (New.Cfg).String = "Config: \n sender: map[]\n---\n" ∧
    Config.String ⟨"/etc/lc.json", [("user", "u@h"), ("addr", "h:25")],
        [⟨"Nginx",
            [⟨"/var/log/nginx/error.log", 180, "ERROR", 1, true, ["a@h", "b@h"], [10, 20]⟩,
             ⟨"/var/log/nginx/access.log", 60, "", 500, false, [], []⟩]⟩,
         ⟨"Syslog", []⟩]⟩
      = "Config: /etc/lc.json\n sender: map[addr:h:25 user:u@h]\n---\nNginx\n\tFile: /var/log/nginx/error.log; Delay: 180; Pattern: ERROR; Boundary: 1; Increase: true; Emails: [a@h b@h]; Limits: [10 20]\n\tFile: /var/log/nginx/access.log; Delay: 60; Pattern: ; Boundary: 500; Increase: false; Emails: []; Limits: []\n---\nSyslog\n\t" := by
  have hlen : 0 < cfg.String.length := by
    unfold Config.String
    simp only [Sprintf_config, String.length_append]
    have : ("Config: ").length = 8 := by decide
    omega
  refine ⟨?_, hlen, ?_, by decide, ?_⟩
  · intro h0
    rw [h0] at hlen
    exact absurd hlen (by decide)
  · unfold Config.String
    simp only [Sprintf_config]
    have hb : serviceBlock = fun service =>
        service.Name ++ "\n\t" ++
          String.intercalate "\n\t" (service.Files.map (fun file =>
            "File: " ++ file.Log ++ "; Delay: " ++ toString file.Delay ++
            "; Pattern: " ++ file.Pattern ++ "; Boundary: " ++ toString file.Boundary ++
            "; Increase: " ++ (if file.Increase then "true" else "false") ++
            "; Emails: " ++ ("[" ++ String.intercalate " " file.Emails ++ "]") ++
            "; Limits: " ++
              ("[" ++ String.intercalate " " (file.Limits.map toString) ++ "]"))) := by
      funext service
      unfold serviceBlock
      simp only [Sprintf_block]
      have hf : fileLine = fun file => _ := funext fileLine_eq
      rw [hf]
      simp only [Value.format, Join_eq_intercalate]
    rw [hb]
    simp only [Value.format, Join_eq_intercalate]
  · set_option maxRecDepth 8000 in decide

/-- C9, at a concrete input: a configuration with two sender entries and one
service of two files. -/
theorem Config_String_eq_witness :
    Config.String ⟨"/c", [("user", "u"), ("host", "h")],
        [⟨"S", [⟨"/l", 1, "p", 2, true, ["a", "b"], [3, 4]⟩, ⟨"/m", 5, "", 6, false, [], [7]⟩]⟩]⟩
      = "Config: /c\n sender: map[host:h user:u]\n---\nS\n\tFile: /l; Delay: 1; Pattern: p; Boundary: 2; Increase: true; Emails: [a b]; Limits: [3 4]\n\tFile: /m; Delay: 5; Pattern: ; Boundary: 6; Increase: false; Emails: []; Limits: [7]" :=
  ((Config_String_eq ⟨"/c", [("user", "u"), ("host", "h")],
      [⟨"S", [⟨"/l", 1, "p", 2, true, ["a", "b"], [3, 4]⟩,
        ⟨"/m", 5, "", 6, false, [], [7]⟩]⟩]⟩).2.2.1).trans
    (by set_option maxRecDepth 8000 in decide)

/-! ## Services and validation -/

theorem senderField_empty_iff (cfg : Config) (key : String) :
    senderField cfg key = "" ↔
      (cfg.Sender.lookup key = none ∨ cfg.Sender.lookup key = some "") := by
  unfold senderField
  cases h : cfg.Sender.lookup key with
  | none => simp
  | some v => simp

theorem fileValid_iff (file : File) :
    fileValid file = true ↔
      (file.Log ≠ "" ∧ 0 < file.Delay ∧ file.Limits.Pairwise (fun a b => a < b) ∧
        ∀ l ∈ file.Limits, file.Boundary < l) := by
  unfold fileValid
  simp only [Bool.and_eq_true, bne_iff_ne, decide_eq_true_eq, List.all_eq_true, and_assoc, ne_eq]

/-- The configurations `Validate` finds no error in. -/
theorem configError_none_iff (c : Checker) :
    configError c = none ↔
      ((∀ n ∈ c.names, n ≠ "") ∧ c.names.Nodup ∧
        (∀ file ∈ c.files, fileValid file = true) ∧
        (c.files.map (fun file => file.Log)).Nodup ∧
        (c.logger.Cfg.Observed ≠ [] →
          ∀ key ∈ senderFields, senderField c.logger.Cfg key ≠ "") ∧
        (backends.lookup c.Storage).isSome = true) := by
  unfold configError
  by_cases h1 : c.names.any (fun n => n == "") = true
  · rw [if_pos h1]
    constructor
    · intro h
      cases h
    · rintro ⟨hn, _⟩
      rw [List.any_eq_true] at h1
      obtain ⟨n, hmem, hn0⟩ := h1
      exact absurd (beq_iff_eq.mp hn0) (hn n hmem)
  · have hn : ∀ n ∈ c.names, n ≠ "" := by
      intro n hmem h0
      apply h1
      rw [List.any_eq_true]
      exact ⟨n, hmem, beq_iff_eq.mpr h0⟩
    rw [if_neg h1]
    by_cases h2 : c.names.Nodup
    · rw [if_neg (not_not.mpr h2)]
      by_cases h3 : c.files.any (fun file => !fileValid file) = true
      · rw [if_pos h3]
        constructor
        · intro h
          cases h
        · rintro ⟨_, _, hf, _⟩
          rw [List.any_eq_true] at h3
          obtain ⟨file, hmem, hbad⟩ := h3
          rw [hf file hmem] at hbad
          cases hbad
      · have hf : ∀ file ∈ c.files, fileValid file = true := by
          intro file hmem
          by_contra hbad
          apply h3
          rw [List.any_eq_true]
          exact ⟨file, hmem, by simpa using hbad⟩
        rw [if_neg h3]
        by_cases h4 : (c.files.map (fun file => file.Log)).Nodup
        · rw [if_neg (not_not.mpr h4)]
          by_cases h5 : (!c.logger.Cfg.Observed.isEmpty &&
              senderFields.any (fun key => senderField c.logger.Cfg key == "")) = true
          · rw [if_pos h5]
            constructor
            · intro h
              cases h
            · rintro ⟨_, _, _, _, hs, _⟩
              rw [Bool.and_eq_true, List.any_eq_true] at h5
              obtain ⟨hne, key, hkey, hk⟩ := h5
              have hobs : c.logger.Cfg.Observed ≠ [] := by
                intro h0
                rw [h0] at hne
                cases hne
              exact absurd (beq_iff_eq.mp hk) (hs hobs key hkey)
          · have hs : c.logger.Cfg.Observed ≠ [] →
                ∀ key ∈ senderFields, senderField c.logger.Cfg key ≠ "" := by
              intro hobs key hkey hk
              apply h5
              rw [Bool.and_eq_true, List.any_eq_true]
              refine ⟨?_, key, hkey, beq_iff_eq.mpr hk⟩
              cases hO : c.logger.Cfg.Observed with
              | nil => exact absurd hO hobs
              | cons x l => rfl
            rw [if_neg h5]
            cases hb : backends.lookup c.Storage with
            | none =>
              simp only [Option.isNone_none, if_true, Option.isSome_none]
              constructor
              · intro h
                cases h
              · rintro ⟨_, _, _, _, _, h6⟩
                cases h6
            | some backend =>
              simp only [Option.isNone_some, Bool.false_eq_true, if_false, Option.isSome_some,
                true_iff]
              exact ⟨hn, h2, hf, h4, hs, trivial⟩
        · rw [if_pos h4]
          constructor
          · intro h
            cases h
          · rintro ⟨_, _, _, h, _⟩
            exact absurd h h4
    · rw [if_pos h2]
      constructor
      · intro h
        cases h
      · rintro ⟨_, h, _⟩
        exact absurd h h2

theorem Validate_nil_iff (c : Checker) : (Validate c).2 = none ↔ configError c = none := by
  unfold Validate
  cases h : configError c with
  | none => simp
  | some err => simp

theorem Validate_backend (c : Checker) (h : configError c = none) :
    (Validate c).1.Backend = backends.lookup c.Storage := by
  unfold Validate
  rw [h]

theorem HasService_iff (c : Checker) (serv : Service) (b : Bool) :
    HasService c serv b = true ↔ serv.Name ∈ c.names := by
  unfold HasService Checker.names
  simp only [List.any_eq_true, List.mem_map, beq_iff_eq]

theorem AddService_ok (c : Checker) (serv : Service) (hne : serv.Name ≠ "")
    (hnew : serv.Name ∉ c.names) :
    AddService c serv =
      (⟨⟨c.logger.Name, ⟨c.logger.Cfg.Path, c.logger.Cfg.Sender,
          c.logger.Cfg.Observed ++ [serv]⟩⟩, c.Storage, c.Backend⟩, none) := by
  unfold AddService
  have h1 : (serv.Name.length == 0) = false := by
    rw [beq_eq_false_iff_ne]
    intro h0
    apply hne
    rw [← length_lt_one_iff]
    omega
  have h2 : HasService c serv true = false := by
    rw [Bool.eq_false_iff, Ne, HasService_iff]
    exact hnew
  simp [h1, h2]

theorem AddService_refused (c : Checker) (serv : Service)
    (h : serv.Name = "" ∨ serv.Name ∈ c.names) :
    (AddService c serv).2 ≠ none ∧ (AddService c serv).1 = c := by
  unfold AddService
  by_cases h0 : serv.Name = ""
  · have h1 : (serv.Name.length == 0) = true := by
      rw [h0]
      rfl
    simp [h1]
  · have hin : serv.Name ∈ c.names := h.resolve_left h0
    have h2 : HasService c serv true = true := (HasService_iff c serv true).mpr hin
    split_ifs <;> simp

/-- C5: service names are unique and non-empty within a configuration.
`AddService` returns an error for a service with an empty name and for a
service whose name is already registered, and succeeds otherwise, keeping the
names distinct and non-empty; `HasService` reports false for a name before it
is added and true after; `Validate` returns an error for every configuration
in which two observed services share a name. -/
theorem services_unique (c : Checker) (serv : Service) (b : Bool) :
    (serv.Name = "" → (AddService c serv).2 ≠ none) ∧
    (HasService c serv b = true → (AddService c serv).2 ≠ none) ∧
    (serv.Name ≠ "" → HasService c serv b = false →
      (AddService c serv).2 = none ∧
      (AddService c serv).1.logger.Cfg.Observed = c.logger.Cfg.Observed ++ [serv]) ∧
    HasService Checker.New serv b = false ∧
    ((AddService c serv).2 = none →
      HasService c serv b = false ∧ HasService (AddService c serv).1 serv b = true) ∧
    (c.names.Nodup → (∀ n ∈ c.names, n ≠ "") →
      (AddService c serv).1.names.Nodup ∧ ∀ n ∈ (AddService c serv).1.names, n ≠ "") ∧
    ((∃ i j : Nat, ∃ s t : Service, i ≠ j ∧ c.logger.Cfg.Observed[i]? = some s ∧
        c.logger.Cfg.Observed[j]? = some t ∧ s.Name = t.Name) →
      (Validate c).2 ≠ none) := by
  refine ⟨?_, ?_, ?_, rfl, ?_, ?_, ?_⟩
  · intro h
    exact (AddService_refused c serv (Or.inl h)).1
  · intro h
    exact (AddService_refused c serv (Or.inr ((HasService_iff c serv b).mp h))).1
  · intro hne hnot
    have hnew : serv.Name ∉ c.names := by
      rw [← HasService_iff c serv b, hnot]
      simp
    rw [AddService_ok c serv hne hnew]
    exact ⟨rfl, rfl⟩
  · intro hok
    by_cases hne : serv.Name = ""
    · exact absurd hok (AddService_refused c serv (Or.inl hne)).1
    · by_cases hin : serv.Name ∈ c.names
      · exact absurd hok (AddService_refused c serv (Or.inr hin)).1
      · refine ⟨?_, ?_⟩
        · rw [Bool.eq_false_iff, Ne, HasService_iff]
          exact hin
        · rw [HasService_iff, AddService_ok c serv hne hin]
          simp [Checker.names]
  · intro hnd hall
    by_cases hne : serv.Name = ""
    · rw [(AddService_refused c serv (Or.inl hne)).2]
      exact ⟨hnd, hall⟩
    · by_cases hin : serv.Name ∈ c.names
      · rw [(AddService_refused c serv (Or.inr hin)).2]
        exact ⟨hnd, hall⟩
      · rw [AddService_ok c serv hne hin]
        have hn : (Checker.names ⟨⟨c.logger.Name, ⟨c.logger.Cfg.Path, c.logger.Cfg.Sender,
            c.logger.Cfg.Observed ++ [serv]⟩⟩, c.Storage, c.Backend⟩)
            = c.names ++ [serv.Name] := by
          simp [Checker.names]
        rw [hn]
        constructor
        · rw [List.nodup_append]
          refine ⟨hnd, List.nodup_singleton _, ?_⟩
          intro a ha hb
          rw [List.mem_singleton] at hb
          exact hin (hb ▸ ha)
        · intro n hmem
          rcases List.mem_append.mp hmem with h1 | h1
          · exact hall n h1
          · rw [List.mem_singleton] at h1
            rw [h1]
            exact hne
  · rintro ⟨i, j, s, t, hij, hi, hj, hst⟩
    have hdup : ¬ c.names.Nodup := by
      intro hnd
      have hi2 : c.names[i]? = some s.Name := by
        simp [Checker.names, hi]
      have hj2 : c.names[j]? = some t.Name := by
        simp [Checker.names, hj]
      have hil : i < c.names.length := by
        by_contra hcon
        rw [List.getElem?_eq_none (by omega)] at hi2
        cases hi2
      have hjl : j < c.names.length := by
        by_contra hcon
        rw [List.getElem?_eq_none (by omega)] at hj2
        cases hj2
      rw [List.nodup_iff_getElem?_ne_getElem?] at hnd
      rcases Nat.lt_or_gt_of_ne hij with hlt | hgt
      · exact hnd i j hlt hjl (by rw [hi2, hj2, hst])
      · exact hnd j i hgt hil (by rw [hi2, hj2, hst])
    rw [Ne, Validate_nil_iff]
    intro hnone
    exact hdup ((configError_none_iff c).mp hnone).2.1

/-- C5, at the inputs of the test suite: the service `TestSrv` registered
twice, and a configuration whose second service is renamed to `Nginx`. -/
theorem services_unique_witness :
    (AddService Checker.New ⟨"", []⟩).2 ≠ none ∧
    (AddService Checker.New ⟨"TestSrv", []⟩).2 = none ∧
    HasService (AddService Checker.New ⟨"TestSrv", []⟩).1 ⟨"TestSrv", []⟩ true = true ∧
    (AddService (AddService Checker.New ⟨"TestSrv", []⟩).1 ⟨"TestSrv", []⟩).2 ≠ none ∧
    (Validate ⟨⟨"", ⟨"", [], [⟨"Nginx", []⟩, ⟨"Nginx", []⟩]⟩⟩, "memory", none⟩).2 ≠ none :=
  ⟨(services_unique Checker.New ⟨"", []⟩ true).1 rfl,
   ((services_unique Checker.New ⟨"TestSrv", []⟩ true).2.2.1 (by decide) (by decide)).1,
   ((services_unique Checker.New ⟨"TestSrv", []⟩ true).2.2.2.2.1 (by decide)).2,
   (services_unique (AddService Checker.New ⟨"TestSrv", []⟩).1 ⟨"TestSrv", []⟩ true).2.1
     (by decide),
   (services_unique ⟨⟨"", ⟨"", [], [⟨"Nginx", []⟩, ⟨"Nginx", []⟩]⟩⟩, "memory", none⟩
     ⟨"", []⟩ true).2.2.2.2.2.2
     ⟨0, 1, ⟨"Nginx", []⟩, ⟨"Nginx", []⟩, by decide, rfl, rfl, rfl⟩⟩

/-- C6, as stated, fails: with all four sender fields set and the storage
`memory`, `Validate` still returns an error when two observed services have
the same name, and likewise when a service has no name, when two files have
the same path, when a delay is 0 and when the limits are not ascending. -/
theorem Validate_full_sender_error :
    (∀ key ∈ senderFields, senderField ⟨"", fullSender, []⟩ key ≠ "") ∧
    (Validate ⟨⟨"", ⟨"", fullSender, [⟨"Nginx", []⟩, ⟨"Nginx", []⟩]⟩⟩, "memory", none⟩).2
      ≠ none ∧
    (Validate ⟨⟨"", ⟨"", fullSender, [⟨"", []⟩]⟩⟩, "memory", none⟩).2 ≠ none ∧
    (Validate ⟨⟨"", ⟨"", fullSender,
      [⟨"A", [⟨"/l", 1, "", 5, true, [], [10]⟩]⟩, ⟨"B", [⟨"/l", 1, "", 5, true, [], [10]⟩]⟩]⟩⟩,
      "memory", none⟩).2 ≠ none ∧
    (Validate ⟨⟨"", ⟨"", fullSender, [⟨"A", [⟨"/l", 0, "", 5, true, [], [10]⟩]⟩]⟩⟩,
      "memory", none⟩).2 ≠ none ∧
    (Validate ⟨⟨"", ⟨"", fullSender, [⟨"A", [⟨"/l", 1, "", 5, true, [], [20, 10, 10]⟩]⟩]⟩⟩,
      "memory", none⟩).2 ≠ none := by
  decide

/-- C6, amended: for a `LogChecker` with a registered service, `Validate`
returns an error whenever `Sender` lacks one of the fields `user`,
`password`, `host`, `addr` or holds an empty value for it, and whenever
`Storage` names no known backend; when the four fields are non-empty,
`Storage` is `memory` and the observed services hold no other configuration
error (every service name is non-empty and no two services share one; every
file has a non-empty path that no other file has, a delay above 0 and
strictly ascending limits above its boundary), `Validate` returns nil and
`GetName` of the backend it selected is `Memory`. Each of these conditions is
needed: whenever `Validate` returns nil, all of them hold. -/
theorem Validate_sender_storage (c : Checker) (hreg : c.logger.Cfg.Observed ≠ []) :
    ((∃ key ∈ senderFields, c.logger.Cfg.Sender.lookup key = none ∨
        c.logger.Cfg.Sender.lookup key = some "") → (Validate c).2 ≠ none) ∧
    (backends.lookup c.Storage = none → (Validate c).2 ≠ none) ∧
    ((∀ key ∈ senderFields, ∃ v, c.logger.Cfg.Sender.lookup key = some v ∧ v ≠ "") →
      c.Storage = "memory" →
      (∀ n ∈ c.names, n ≠ "") → c.names.Nodup →
      (∀ file ∈ c.files, file.Log ≠ "" ∧ 0 < file.Delay ∧
        file.Limits.Pairwise (fun a b => a < b) ∧ ∀ l ∈ file.Limits, file.Boundary < l) →
      (c.files.map (fun file => file.Log)).Nodup →
      (Validate c).2 = none ∧
      ∃ backend, (Validate c).1.Backend = some backend ∧ backend.GetName = "Memory") ∧
    ((Validate c).2 = none →
      (∀ key ∈ senderFields, ∃ v, c.logger.Cfg.Sender.lookup key = some v ∧ v ≠ "") ∧
      (∃ backend, backends.lookup c.Storage = some backend) ∧
      (∀ n ∈ c.names, n ≠ "") ∧ c.names.Nodup ∧
      (∀ file ∈ c.files, file.Log ≠ "" ∧ 0 < file.Delay ∧
        file.Limits.Pairwise (fun a b => a < b) ∧ ∀ l ∈ file.Limits, file.Boundary < l) ∧
      (c.files.map (fun file => file.Log)).Nodup) := by
  have hfull : ∀ key, senderField c.logger.Cfg key ≠ "" ↔
      ∃ v, c.logger.Cfg.Sender.lookup key = some v ∧ v ≠ "" := by
    intro key
    rw [Ne, senderField_empty_iff]
    cases h : c.logger.Cfg.Sender.lookup key with
    | none => simp
    | some v => simp
  refine ⟨?_, ?_, ?_, ?_⟩
  · rintro ⟨key, hkey, hval⟩
    rw [Ne, Validate_nil_iff]
    intro hnone
    have hs := ((configError_none_iff c).mp hnone).2.2.2.2.1 hreg key hkey
    exact hs ((senderField_empty_iff _ _).mpr hval)
  · intro hlook
    rw [Ne, Validate_nil_iff]
    intro hnone
    have hb := ((configError_none_iff c).mp hnone).2.2.2.2.2
    rw [hlook] at hb
    cases hb
  · intro hall hst hne hnd hfiles hpaths
    have hlook : backends.lookup c.Storage = some ⟨"Memory"⟩ := by
      rw [hst]
      rfl
    have hnone : configError c = none := by
      rw [configError_none_iff]
      refine ⟨hne, hnd, ?_, hpaths, ?_, ?_⟩
      · intro file hmem
        exact (fileValid_iff file).mpr (hfiles file hmem)
      · intro _ key hkey
        exact (hfull key).mpr (hall key hkey)
      · rw [hlook]
        rfl
    refine ⟨(Validate_nil_iff c).mpr hnone, ⟨"Memory"⟩, ?_, rfl⟩
    rw [Validate_backend c hnone, hlook]
  · intro hnil
    obtain ⟨hne, hnd, hf, hpaths, hs, hb⟩ :=
      (configError_none_iff c).mp ((Validate_nil_iff c).mp hnil)
    refine ⟨fun key hkey => (hfull key).mp (hs hreg key hkey), ?_, hne, hnd, ?_, hpaths⟩
    · cases hl : backends.lookup c.Storage with
      | none =>
        rw [hl] at hb
        cases hb
      | some backend => exact ⟨backend, rfl⟩
    · intro file hmem
      exact (fileValid_iff file).mp (hf file hmem)

/-- C6, amended, at the inputs of the test suite: the service `TestSrv`, with
the fourth sender field missing, then empty, then set; with no storage named,
then with the storage `memory`; and a service with a valid file. -/
theorem Validate_sender_storage_witness :
    (Validate ⟨⟨"", ⟨"", fullSender.take 3, [⟨"TestSrv", []⟩]⟩⟩, "memory", none⟩).2 ≠ none ∧
    (Validate ⟨⟨"", ⟨"", fullSender.take 3 ++ [("addr", "")], [⟨"TestSrv", []⟩]⟩⟩,
      "memory", none⟩).2 ≠ none ∧
    (Validate ⟨⟨"", ⟨"", fullSender, [⟨"TestSrv", []⟩]⟩⟩, "", none⟩).2 ≠ none ∧
    (Validate ⟨⟨"", ⟨"", fullSender, [⟨"TestSrv", []⟩]⟩⟩, "memory", none⟩).2 = none ∧
    (∃ backend,
      (Validate ⟨⟨"", ⟨"", fullSender, [⟨"TestSrv", []⟩]⟩⟩, "memory", none⟩).1.Backend
        = some backend ∧ backend.GetName = "Memory") ∧
    (Validate ⟨⟨"", ⟨"", fullSender,
      [⟨"Nginx", [⟨"/var/log/nginx/error.log", 180, "ERROR", 1, true, ["a@h"], [10, 20]⟩]⟩]⟩⟩,
      "memory", none⟩).2 = none :=
  ⟨(Validate_sender_storage
      ⟨⟨"", ⟨"", fullSender.take 3, [⟨"TestSrv", []⟩]⟩⟩, "memory", none⟩ (by decide)).1
      ⟨"addr", by decide, Or.inl (by decide)⟩,
   (Validate_sender_storage
      ⟨⟨"", ⟨"", fullSender.take 3 ++ [("addr", "")], [⟨"TestSrv", []⟩]⟩⟩, "memory", none⟩
      (by decide)).1 ⟨"addr", by decide, Or.inr (by decide)⟩,
   (Validate_sender_storage
      ⟨⟨"", ⟨"", fullSender, [⟨"TestSrv", []⟩]⟩⟩, "", none⟩ (by decide)).2.1 (by decide),
   ((Validate_sender_storage
      ⟨⟨"", ⟨"", fullSender, [⟨"TestSrv", []⟩]⟩⟩, "memory", none⟩ (by decide)).2.2.1
      (by decide) rfl (by decide) (by decide) (by decide) (by decide)).1,
   ((Validate_sender_storage
      ⟨⟨"", ⟨"", fullSender, [⟨"TestSrv", []⟩]⟩⟩, "memory", none⟩ (by decide)).2.2.1
      (by decide) rfl (by decide) (by decide) (by decide) (by decide)).2,
   ((Validate_sender_storage
      ⟨⟨"", ⟨"", fullSender,
        [⟨"Nginx", [⟨"/var/log/nginx/error.log", 180, "ERROR", 1, true, ["a@h"], [10, 20]⟩]⟩]⟩⟩,
        "memory", none⟩ (by decide)).2.2.1
      (by decide) rfl (by decide) (by decide) (by decide) (by decide)).1⟩

end Logchecker
